import Mathlib

/-!
Verification development for the nesquic byte relay (src/src/main.rs).

The program is a one-shot QUIC relay: the client (`run_client`) reads
buffers from local stdin and writes them to the send half of a single
bidirectional stream, finishing the stream at EOF; the server
(`run_server`) accepts one connection and one bidirectional stream
(`accept_conn`), then repeatedly pulls chunks from the receive half
(`recv_until`, which ignores its delimiter argument) and writes each
chunk to local stdout, stopping when the peer closes the stream and
panicking on a transport error.  All tracing output goes to stderr
(`with_writer(stderr)` in `main`), and `main` discards the result of
`run_client` / `run_server`.

We embed these functions shallowly: a receive stream is its queue of
pending data chunks plus how it terminates, a read of at most
`maxLength` bytes pops (a prefix of) the first chunk, and the relay
loops become recursive Lean functions producing the trace of writes and
log messages each side emits.
-/

/-- A byte buffer; relay code never computes with byte values, so `Nat` suffices. -/
abbrev Buf := List Nat

/-- Concatenation of a list of buffers. -/
def cat : List Buf → Buf
  | [] => []
  | b :: rest => b ++ cat rest

/-- How a receive stream ends once its pending data is drained:
the peer finished its send half (clean end-of-stream), or a transport
error carrying a message. -/
inductive StreamTerminal where
  | finished
  | failed (e : String)
  deriving DecidableEq, Repr

/-- The receive half of a bidirectional stream, as the inbound loop sees
it: the queue of data chunks still to be delivered, in order, and the
terminal signal reported after they are drained. -/
structure RecvStream where
  chunks : List Buf
  terminal : StreamTerminal
  deriving DecidableEq, Repr

/-- Model of `quinn::RecvStream::read_chunk(max_length, ordered)`: yields
the next chunk of at most `maxLength` bytes (splitting an oversized
chunk and leaving the remainder queued), `Ok(None)` on clean
end-of-stream, and `Err` on a transport error.  The `ordered` flag is
`true` throughout this program; delivery is in queue order. -/
def read_chunk (maxLength : Nat) (_ordered : Bool) (s : RecvStream) :
    Except String (Option Buf) × RecvStream :=
  match s.chunks with
  | c :: rest =>
      if c.length ≤ maxLength then (Except.ok (some c), ⟨rest, s.terminal⟩)
      else (Except.ok (some (c.take maxLength)), ⟨c.drop maxLength :: rest, s.terminal⟩)
  | [] =>
      match s.terminal with
      | StreamTerminal.finished => (Except.ok none, s)
      | StreamTerminal.failed e => (Except.error e, s)

/-- Output channels of the process: the data channel (stdout) and the
diagnostic channel (stderr). -/
inductive Chan where
  | stdout
  | stderr
  deriving DecidableEq, Repr

/-- The writer installed for tracing output in `main`:
`tracing_subscriber::fmt().with_writer(stderr)` (main.rs lines 26-29),
so every `info!` / `debug!` message goes to stderr. -/
def tracingChan : Chan := Chan.stderr

/-- An observable output event of the process: a byte write on a channel
(`stdout().write_all(&msg)`) or a diagnostic log line on a channel. -/
inductive Ev where
  | write (c : Chan) (b : Buf)
  | log (c : Chan) (msg : String)
  deriving DecidableEq, Repr

/-- Bytes written to stdout within a list of events, in order. -/
def stdoutBytes : List Ev → Buf
  | [] => []
  | Ev.write Chan.stdout b :: rest => b ++ stdoutBytes rest
  | _ :: rest => stdoutBytes rest

/-- Model of `recv_until(recv, _delim)` (main.rs lines 67-103): one
`read_chunk(1024 * 1024, true)` request; `Ok(Some(chunk))` is returned
as is, `Ok(None)` logs that the stream was closed and returns `None`,
and an error is returned as a typed `Err`.  The delimiter argument is
unused in the source (`_delim`).  The result carries the updated stream
and the log events emitted. -/
def recv_until (recv : RecvStream) (_delim : Nat) :
    Except String (Option Buf) × RecvStream × List Ev :=
  match read_chunk (1024 * 1024) true recv with
  | (Except.ok none, s) =>
      (Except.ok none, s, [Ev.log tracingChan "stream was closed by the peer."])
  | (Except.ok (some chunk), s) => (Except.ok (some chunk), s, [])
  | (Except.error e, s) => (Except.error e, s, [])

/-- Outcome of one iteration of a `loop` body: return a value out of the
loop, or continue with a new state. -/
inductive LoopStep (α σ : Type) where
  | ret (a : α)
  | cont (s : σ)

/-- The body of the `loop` inside `recv_until`, one iteration: match on
`read_chunk` and return in every branch (the source loop has no
`continue` path left; the commented-out delimiter logic is gone). -/
def recv_until_body (_d : Nat) (s : RecvStream) :
    LoopStep (Except String (Option Buf) × RecvStream × List Ev) RecvStream :=
  match read_chunk (1024 * 1024) true s with
  | (Except.ok none, s1) =>
      LoopStep.ret
        (Except.ok none, s1, [Ev.log tracingChan "stream was closed by the peer."])
  | (Except.ok (some chunk), s1) => LoopStep.ret (Except.ok (some chunk), s1, [])
  | (Except.error e, s1) => LoopStep.ret (Except.error e, s1, [])

/-- Run a loop body for at most `fuel` iterations. -/
def iterate {α σ : Type} (body : σ → LoopStep α σ) : Nat → σ → Option α
  | 0, _ => none
  | fuel + 1, s =>
      match body s with
      | LoopStep.ret a => some a
      | LoopStep.cont s1 => iterate body fuel s1

/-- Measure for the inbound loop: total pending bytes plus pending chunk
count, which strictly drops at every successful `read_chunk`. -/
def streamMeasure (s : RecvStream) : Nat :=
  (cat s.chunks).length + s.chunks.length

/-- Outcome of the server inbound loop: left the loop normally at
end-of-stream, or aborted the process via `panic!` with the transport
error message. -/
inductive ServerOutcome where
  | completed
  | panicked (msg : String)
  deriving DecidableEq, Repr

/-- Model of the `loop` in `run_server` (main.rs lines 134-142): call
`recv_until(recv, b'\n')`; on `Ok(Some(msg))` write the chunk to stdout
and continue; on `Ok(None)` break out normally; on `Err(e)` abort via
`panic!("{}", e)` (the panic message is printed to stderr by the
runtime).  Returns the event trace and the outcome. -/
def run_server_go (s : RecvStream) : List Ev × ServerOutcome :=
  match h : recv_until s 10 with
  | (Except.ok (some msg), s1, evs) =>
      let r := run_server_go s1
      (evs ++ Ev.write Chan.stdout msg :: r.1, r.2)
  | (Except.ok none, _, evs) => (evs, ServerOutcome.completed)
  | (Except.error e, _, evs) => (evs ++ [Ev.log Chan.stderr e], ServerOutcome.panicked e)
termination_by streamMeasure s
decreasing_by
  obtain ⟨cs, t⟩ := s
  unfold recv_until read_chunk at h
  cases cs with
  | nil => cases t <;> simp at h
  | cons c rest =>
      by_cases hlen : c.length ≤ 1024 * 1024
      · simp only [hlen, if_true] at h
        simp at h
        obtain ⟨h1, h2, h3⟩ := h
        rw [← h2]
        simp [streamMeasure, cat]
        omega
      · simp only [hlen, if_false] at h
        simp at h
        obtain ⟨h1, h2, h3⟩ := h
        rw [← h2]
        push_neg at hlen
        simp [streamMeasure, cat]
        omega

/-- Actions the client performs on the send half of the stream:
`write_all(&buffer)` calls and the final `finish()`. -/
inductive ClientAction where
  | wrote (b : Buf)
  | finishedSend
  deriving DecidableEq, Repr

/-- Model of the stdin loop in `run_client` (main.rs lines 166-177):
`fill_buf` yields the buffers of `stdinBufs` in order; an empty buffer
(or exhaustion of the list) is EOF and breaks the loop; otherwise the
buffer is written to the send half via `write_all` and consumed. -/
def client_loop : List Buf → List ClientAction
  | [] => []
  | b :: rest =>
      if b.length = 0 then [] else ClientAction.wrote b :: client_loop rest

/-- The buffers `run_client` writes to the send half, in order: the
stdin buffers up to the first empty one (EOF). -/
def client_sent : List Buf → List Buf
  | [] => []
  | b :: rest => if b.length = 0 then [] else b :: client_sent rest

/-- Stream actions of `run_client` after the stream is open (main.rs
lines 160-185): the stdin loop's writes, then `send.finish()` once the
loop broke at EOF. -/
def run_client_actions (stdinBufs : List Buf) : List ClientAction :=
  client_loop stdinBufs ++ [ClientAction.finishedSend]

/-- Log events of the stdin loop in `run_client`: one
`debug!("sent {} bytes", length)` line per buffer written. -/
def client_loop_logs : List Buf → List Ev
  | [] => []
  | b :: rest =>
      if b.length = 0 then []
      else Ev.log tracingChan "sent bytes" :: client_loop_logs rest

/-- Output-event trace of `run_client` after a successful connect: the
`info!` connected line, the per-buffer `debug!` lines, and the
`info!` closing line.  The client writes nothing to stdout. -/
def run_client_trace (stdinBufs : List Buf) : List Ev :=
  Ev.log tracingChan "[client] connected" ::
    (client_loop_logs stdinBufs ++ [Ev.log tracingChan "[client] closing connection"])

/-- Summary of what one side of the relay does with the four endpoints
available to it: bytes sent on the stream send half, bytes written to
local stdout, and whether it finished the send half. -/
structure SideRun where
  sentToStream : List Buf
  wroteToStdout : Buf
  finishedSend : Bool
  deriving DecidableEq, Repr

/-- Full-run summary of `run_server` (main.rs lines 127-143) given the
process stdin and the receive stream: the send half is bound as unused
`_send` (line 132), so nothing is sent and `finish` is never called;
stdout receives the relayed chunks from the inbound loop.  The stdin
argument is ignored because the server code never reads stdin. -/
def run_server_side (_stdinBufs : List Buf) (recv : RecvStream) : SideRun :=
  { sentToStream := []
    wroteToStdout := stdoutBytes (run_server_go recv).1
    finishedSend := false }

/-- Full-run summary of `run_client` (main.rs lines 145-186) given the
process stdin and the receive stream: the receive half is bound as
unused `_recv` (line 158), so nothing is ever written to stdout; the
stdin loop's buffers go to the send half and `finish` is called. -/
def run_client_side (stdinBufs : List Buf) (_recv : RecvStream) : SideRun :=
  { sentToStream := client_sent stdinBufs
    wroteToStdout := []
    finishedSend := true }

/-- A connection as the acceptor sees it: the queue of incoming
bidirectional streams the peer opens on it (identified by stream ids). -/
structure ConnModel where
  streams : List Nat
  deriving DecidableEq, Repr

/-- A pending incoming connection on the endpoint: the handshake either
completes with a connection or fails with an error. -/
structure PendingConn where
  handshake : Except String ConnModel
  deriving Repr

/-- The server endpoint: its queue of pending incoming connections.  An
empty queue models a closed endpoint, for which `accept()` yields
`None`. -/
structure EndpointModel where
  pending : List PendingConn
  deriving Repr

/-- Result of `accept_conn` (main.rs lines 105-124): the accepted
stream id together with the streams and connections left unconsumed, or
a process abort (`unwrap` / `panic!`). -/
inductive AcceptResult where
  | ok (stream : Nat) (restStreams : List Nat) (restConns : List PendingConn)
  | panicked (msg : String)
  deriving Repr

/-- Model of `accept_conn`: `endpoint.accept().await.unwrap()` takes the
first pending connection (panicking if the endpoint yields `None`),
awaiting the handshake panics on error (`.unwrap()`), and
`conn.accept_bi()` takes the first incoming stream, panicking with
`"connection closed"` when the peer opened none.  Exactly the first
pending connection and its first stream are consumed. -/
def accept_conn (ep : EndpointModel) : AcceptResult :=
  match ep.pending with
  | [] => AcceptResult.panicked "endpoint closed"
  | pc :: restConns =>
      match pc.handshake with
      | Except.error e => AcceptResult.panicked e
      | Except.ok conn =>
          match conn.streams with
          | [] => AcceptResult.panicked "connection closed"
          | sid :: restStreams => AcceptResult.ok sid restStreams restConns

/-- Connection-setup actions, for counting how many connections and
streams each entry point consumes or creates. -/
inductive SetupAction where
  | acceptConn
  | acceptBi
  | connect
  | openBi
  deriving DecidableEq, Repr

/-- Setup actions of `run_server` (main.rs lines 127-133): one
`endpoint.accept()` and one `conn.accept_bi()`, via `accept_conn`,
before entering the relay loop; the loop performs no further setup. -/
def run_server_setup : List SetupAction := [SetupAction.acceptConn, SetupAction.acceptBi]

/-- Setup actions of `run_client` (main.rs lines 150-158): one
`endpoint.connect(...)` and one `conn.open_bi()` before the stdin
loop; no further connection or stream is opened. -/
def run_client_setup : List SetupAction := [SetupAction.connect, SetupAction.openBi]

/-- How an entry-point invocation in `main` ends: returning `Ok`,
returning a typed `Err`, or aborting the process through a panic. -/
inductive RunResult where
  | ok
  | err (e : String)
  | panicked (msg : String)
  deriving DecidableEq, Repr

/-- Process exit status as a function of how the invoked entry point
ended (main.rs lines 53-64): `main` discards the returned `Result` with
`let _ = ...` and itself returns `Ok(())`, so both `Ok` and `Err`
returns exit with status 0; only a panic aborts the process, with the
Rust panic exit status 101. -/
def main_exit_code : RunResult → Nat
  | RunResult.panicked _ => 101
  | _ => 0

/-- The outcome the inbound loop reaches once the stream's pending data
is drained, as a function of the stream terminal. -/
def terminalOutcome : StreamTerminal → ServerOutcome
  | StreamTerminal.finished => ServerOutcome.completed
  | StreamTerminal.failed e => ServerOutcome.panicked e

/-- Event check: every diagnostic log line is on stderr. -/
def logsToStderr : Ev → Bool
  | Ev.log c _ => c == Chan.stderr
  | Ev.write _ _ => true

/-- Event check: every byte write is a chunk of at most 1 MiB. -/
def chunkSizeOk : Ev → Bool
  | Ev.write _ b => decide (b.length ≤ 1024 * 1024)
  | Ev.log _ _ => true

theorem stdoutBytes_append (a b : List Ev) :
    stdoutBytes (a ++ b) = stdoutBytes a ++ stdoutBytes b := by
  induction a with
  | nil => rfl
  | cons e rest ih =>
      cases e with
      | write c bb => cases c <;> simp [stdoutBytes, ih]
      | log c m => simp [stdoutBytes, ih]

theorem recv_until_some_inv {s s1 : RecvStream} {d : Nat} {msg : Buf} {evs : List Ev}
    (h : recv_until s d = (Except.ok (some msg), s1, evs)) :
    evs = [] ∧ msg ++ cat s1.chunks = cat s.chunks ∧ s1.terminal = s.terminal ∧
      msg.length ≤ 1024 * 1024 := by
  obtain ⟨cs, t⟩ := s
  unfold recv_until read_chunk at h
  cases cs with
  | nil => cases t <;> simp at h
  | cons c rest =>
      by_cases hlen : c.length ≤ 1024 * 1024
      · simp only [hlen, if_true] at h
        simp at h
        obtain ⟨h1, h2, h3⟩ := h
        subst h1; subst h3
        rw [← h2]
        simp [cat, hlen]
      · simp only [hlen, if_false] at h
        simp at h
        obtain ⟨h1, h2, h3⟩ := h
        subst h1; subst h3
        rw [← h2]
        simp [cat]
        rw [← List.append_assoc, List.take_append_drop]

theorem recv_until_none_inv {s s1 : RecvStream} {d : Nat} {evs : List Ev}
    (h : recv_until s d = (Except.ok none, s1, evs)) :
    s.chunks = [] ∧ s.terminal = StreamTerminal.finished ∧
      evs = [Ev.log Chan.stderr "stream was closed by the peer."] := by
  obtain ⟨cs, t⟩ := s
  unfold recv_until read_chunk at h
  cases cs with
  | nil =>
      cases t with
      | finished => simp_all [tracingChan]
      | failed e => simp at h
  | cons c rest =>
      by_cases hlen : c.length ≤ 1024 * 1024 <;> simp [hlen] at h

theorem recv_until_error_inv {s s1 : RecvStream} {d : Nat} {e : String} {evs : List Ev}
    (h : recv_until s d = (Except.error e, s1, evs)) :
    s.chunks = [] ∧ s.terminal = StreamTerminal.failed e ∧ evs = [] := by
  obtain ⟨cs, t⟩ := s
  unfold recv_until read_chunk at h
  cases cs with
  | nil =>
      cases t with
      | finished => simp at h
      | failed e1 => simp_all
  | cons c rest =>
      by_cases hlen : c.length ≤ 1024 * 1024 <;> simp [hlen] at h

/-- Behaviour of the server inbound loop, for every receive-stream
state: stdout receives exactly the pending bytes in order, the outcome
is determined by the stream terminal (clean close breaks the loop,
error panics), all log lines go to stderr, and every chunk written is
at most 1 MiB. -/
theorem run_server_go_spec (s : RecvStream) :
    stdoutBytes (run_server_go s).1 = cat s.chunks
      ∧ (run_server_go s).2 = terminalOutcome s.terminal
      ∧ (run_server_go s).1.all logsToStderr = true
      ∧ (run_server_go s).1.all chunkSizeOk = true := by
  induction s using run_server_go.induct with
  | case1 x msg s1 evs h ih =>
      obtain ⟨hevs, hcat, hterm, hlen⟩ := recv_until_some_inv h
      rw [run_server_go.eq_def]
      split
      next msg2 s2 evs2 heq =>
        rw [h] at heq
        simp at heq
        obtain ⟨h1, h2, h3⟩ := heq
        subst h1; subst h2; subst h3
        subst hevs
        obtain ⟨ih1, ih2, ih3, ih4⟩ := ih
        refine ⟨?_, ?_, ?_, ?_⟩
        · simpa [stdoutBytes, ih1] using hcat
        · rw [ih2, hterm]
        · simpa [logsToStderr] using ih3
        · simpa [chunkSizeOk, hlen] using ih4
      next s2 evs2 heq =>
        rw [h] at heq
        simp at heq
      next e s2 evs2 heq =>
        rw [h] at heq
        simp at heq
  | case2 x s2 evs h =>
      obtain ⟨hchunks, hterm, hevs⟩ := recv_until_none_inv h
      rw [run_server_go.eq_def]
      split
      next msg2 s3 evs2 heq =>
        rw [h] at heq
        simp at heq
      next s3 evs2 heq =>
        rw [h] at heq
        simp at heq
        obtain ⟨hA, hB⟩ := heq
        rw [← hB]
        subst hevs
        simp [hchunks, hterm, cat, stdoutBytes, terminalOutcome, logsToStderr, chunkSizeOk]
      next e s3 evs2 heq =>
        rw [h] at heq
        simp at heq
  | case3 x e s2 evs h =>
      obtain ⟨hchunks, hterm, hevs⟩ := recv_until_error_inv h
      rw [run_server_go.eq_def]
      split
      next msg2 s3 evs2 heq =>
        rw [h] at heq
        simp at heq
      next s3 evs2 heq =>
        rw [h] at heq
        simp at heq
      next e1 s3 evs2 heq =>
        rw [h] at heq
        simp at heq
        obtain ⟨h1, h2, h3⟩ := heq
        subst h1
        rw [← h3]
        subst hevs
        simp [hchunks, hterm, cat, stdoutBytes, stdoutBytes_append, terminalOutcome,
          logsToStderr, chunkSizeOk]

theorem client_loop_eq_map (bufs : List Buf) :
    client_loop bufs = (client_sent bufs).map ClientAction.wrote := by
  induction bufs with
  | nil => rfl
  | cons b rest ih =>
      by_cases hb : b.length = 0 <;> simp [client_loop, client_sent, hb, ih]

theorem client_sent_of_ne_nil (bufs : List Buf) (h : ∀ b ∈ bufs, b ≠ []) :
    client_sent bufs = bufs := by
  induction bufs with
  | nil => rfl
  | cons b rest ih =>
      have hb : ¬ b.length = 0 := by
        have hmem := h b (by simp)
        simpa [List.length_eq_zero] using hmem
      simp only [client_sent, hb, if_false]
      rw [ih (fun x hx => h x (List.mem_cons_of_mem _ hx))]

theorem client_loop_logs_stderr (bufs : List Buf) :
    (client_loop_logs bufs).all logsToStderr = true := by
  induction bufs with
  | nil => rfl
  | cons b rest ih =>
      by_cases hb : b.length = 0 <;>
        simp [client_loop_logs, hb, logsToStderr, tracingChan, ih]

theorem client_loop_logs_stdout (bufs : List Buf) :
    stdoutBytes (client_loop_logs bufs) = [] := by
  induction bufs with
  | nil => rfl
  | cons b rest ih =>
      by_cases hb : b.length = 0 <;> simp [client_loop_logs, hb, stdoutBytes, ih]

theorem recv_until_body_ret (d : Nat) (s : RecvStream) :
    recv_until_body d s = LoopStep.ret (recv_until s d) := by
  unfold recv_until_body recv_until
  rcases h : read_chunk (1024 * 1024) true s with ⟨res, s1⟩
  cases res with
  | ok ob => cases ob <;> rfl
  | error e => rfl

/-- C1: for every byte sequence B supplied on the sender's stdin (the
nonempty buffers successively yielded by `fill_buf`, concatenating to
B), and every in-order re-chunking `cs` of the bytes the client's
outbound loop writes to the stream, the server's inbound loop writes
exactly B to its stdout and completes normally: no byte is inserted,
lost, or reordered. -/
theorem c1_round_trip_fidelity (B : Buf) (stdinBufs : List Buf) (cs : List Buf)
    (hne : ∀ b ∈ stdinBufs, b ≠ [])
    (hB : cat stdinBufs = B)
    (hnet : cat cs = cat (client_sent stdinBufs)) :
    stdoutBytes (run_server_go ⟨cs, StreamTerminal.finished⟩).1 = B
      ∧ (run_server_go ⟨cs, StreamTerminal.finished⟩).2 = ServerOutcome.completed := by
  obtain ⟨h1, h2, h3, h4⟩ := run_server_go_spec ⟨cs, StreamTerminal.finished⟩
  have hcs : cat cs = B := by rw [hnet, client_sent_of_ne_nil _ hne, hB]
  exact ⟨h1.trans hcs, by simpa [terminalOutcome] using h2⟩

theorem c1_round_trip_fidelity_witness :
    stdoutBytes (run_server_go ⟨[[1, 2], [3]], StreamTerminal.finished⟩).1 = [1, 2, 3]
      ∧ (run_server_go ⟨[[1, 2], [3]], StreamTerminal.finished⟩).2
          = ServerOutcome.completed :=
  c1_round_trip_fidelity [1, 2, 3] [[1], [2, 3]] [[1, 2], [3]]
    (by decide) (by decide) (by decide)

/-- C2 as stated is false on the code: the listener never relays its
local stdin to the stream send half (bound as unused `_send`).  With
the stdin buffer [104, 105] available, the server side still sends
nothing on the stream. -/
theorem c2_full_duplex_counterexample :
    ¬ cat (run_server_side [[104, 105]] ⟨[], StreamTerminal.finished⟩).sentToStream
        = [104, 105] := by
  intro h
  simp [run_server_side, cat] at h

/-- C2 amended: each side runs a single relay direction.  The listener
pipes only the stream receive half to its stdout (its send half is
unused and never finished), and the initiator pipes only its stdin to
the stream send half, finishing it at EOF (its receive half is unused
and nothing is written to its stdout). -/
theorem c2_simplex_relay (stdinBufs : List Buf) (r : RecvStream)
    (hne : ∀ b ∈ stdinBufs, b ≠ []) :
    (run_server_side stdinBufs r).sentToStream = []
      ∧ (run_server_side stdinBufs r).finishedSend = false
      ∧ (run_server_side stdinBufs r).wroteToStdout = cat r.chunks
      ∧ (run_client_side stdinBufs r).wroteToStdout = []
      ∧ (run_client_side stdinBufs r).sentToStream = stdinBufs
      ∧ (run_client_side stdinBufs r).finishedSend = true :=
  ⟨rfl, rfl, (run_server_go_spec r).1, rfl, client_sent_of_ne_nil _ hne, rfl⟩

theorem c2_simplex_relay_witness :
    (run_server_side [[7]] ⟨[[8]], StreamTerminal.finished⟩).sentToStream = []
      ∧ (run_server_side [[7]] ⟨[[8]], StreamTerminal.finished⟩).finishedSend = false
      ∧ (run_server_side [[7]] ⟨[[8]], StreamTerminal.finished⟩).wroteToStdout
          = cat [[8]]
      ∧ (run_client_side [[7]] ⟨[[8]], StreamTerminal.finished⟩).wroteToStdout = []
      ∧ (run_client_side [[7]] ⟨[[8]], StreamTerminal.finished⟩).sentToStream = [[7]]
      ∧ (run_client_side [[7]] ⟨[[8]], StreamTerminal.finished⟩).finishedSend = true :=
  c2_simplex_relay [[7]] ⟨[[8]], StreamTerminal.finished⟩ (by decide)

/-- C3: after local stdin reaches end-of-input the outbound loop always
explicitly finishes the send half: the client's stream-action trace is
exactly its `write_all` actions followed by one final finish action,
so the loop terminates only after the finish call. -/
theorem c3_outbound_finishes (stdinBufs : List Buf) :
    (∃ ws : List Buf, run_client_actions stdinBufs
        = ws.map ClientAction.wrote ++ [ClientAction.finishedSend])
      ∧ (run_client_actions stdinBufs).getLast? = some ClientAction.finishedSend := by
  refine ⟨⟨client_sent stdinBufs, ?_⟩, ?_⟩
  · rw [run_client_actions, client_loop_eq_map]
  · simp [run_client_actions]

/-- C4: the inbound relay loop delivers every chunk it writes with size
at most 1 MiB (the bound passed to `read_chunk`), appends the received
bytes verbatim to stdout in order, and terminates normally exactly when
the receive half reports end-of-stream. -/
theorem c4_inbound_loop (s : RecvStream) :
    (run_server_go s).1.all chunkSizeOk = true
      ∧ stdoutBytes (run_server_go s).1 = cat s.chunks
      ∧ ((run_server_go s).2 = ServerOutcome.completed
          ↔ s.terminal = StreamTerminal.finished) := by
  obtain ⟨h1, h2, h3, h4⟩ := run_server_go_spec s
  refine ⟨h4, h1, ?_⟩
  rw [h2]
  cases s.terminal <;> simp [terminalOutcome]

/-- C5 as stated is false on the code: on a transport error the server
relay loop aborts the process directly via `panic!` instead of
returning a typed failure, as shown on a stream failing with message
"connection reset". -/
theorem c5_no_panic_counterexample :
    (run_server_go ⟨[], StreamTerminal.failed "connection reset"⟩).2
      = ServerOutcome.panicked "connection reset" := by
  simpa [terminalOutcome]
    using (run_server_go_spec ⟨[], StreamTerminal.failed "connection reset"⟩).2.1

/-- C5 amended: `recv_until` itself returns transport errors as typed
`Err` results, but the server relay loop panics on such a result, and
`accept_conn` panics when the handshake of the pending connection
fails: errors during setup or relaying abort the process directly
rather than propagating as typed results to a top-level handler. -/
theorem c5_error_propagation (cs : List Buf) (e : String)
    (ep : EndpointModel) (pc : PendingConn) (rest : List PendingConn) (e1 : String)
    (hep : ep.pending = pc :: rest) (hpc : pc.handshake = Except.error e1) :
    (recv_until ⟨[], StreamTerminal.failed e⟩ 10).1 = Except.error e
      ∧ (run_server_go ⟨cs, StreamTerminal.failed e⟩).2 = ServerOutcome.panicked e
      ∧ accept_conn ep = AcceptResult.panicked e1 := by
  refine ⟨rfl, ?_, ?_⟩
  · simpa [terminalOutcome]
      using (run_server_go_spec ⟨cs, StreamTerminal.failed e⟩).2.1
  · simp [accept_conn, hep, hpc]

theorem c5_error_propagation_witness :
    (recv_until ⟨[], StreamTerminal.failed "reset"⟩ 10).1 = Except.error "reset"
      ∧ (run_server_go ⟨[[9]], StreamTerminal.failed "reset"⟩).2
          = ServerOutcome.panicked "reset"
      ∧ accept_conn ⟨[⟨Except.error "refused"⟩]⟩ = AcceptResult.panicked "refused" :=
  c5_error_propagation [[9]] "reset" ⟨[⟨Except.error "refused"⟩]⟩
    ⟨Except.error "refused"⟩ [] "refused" rfl rfl

/-- C6 as stated is false on the code: `main` discards the entry
point's returned `Result` (`let _ = run_client(...)`) and itself
returns `Ok(())`, so a fatal error returned by `run_client` still exits
the process with status zero. -/
theorem c6_exit_zero_counterexample :
    main_exit_code (RunResult.err "address already in use") = 0 := rfl

/-- C6 amended: the entry points return success or a fatal error, but
`main` discards the returned result, so both a success and a returned
fatal error exit with status zero; only a panic aborts the process with
the non-zero status 101. -/
theorem c6_main_exit (e m : String) :
    main_exit_code (RunResult.err e) = 0
      ∧ main_exit_code RunResult.ok = 0
      ∧ main_exit_code (RunResult.panicked m) = 101 :=
  ⟨rfl, rfl, rfl⟩

/-- C7: all diagnostic log lines of both sides go to the diagnostic
channel stderr (the tracing writer installed in `main`), and the data
channel stdout carries only the relayed stream bytes: the server writes
exactly the received bytes to stdout and the client writes nothing to
stdout. -/
theorem c7_diagnostics_stderr (s : RecvStream) (stdinBufs : List Buf) :
    (run_server_go s).1.all logsToStderr = true
      ∧ (run_client_trace stdinBufs).all logsToStderr = true
      ∧ stdoutBytes (run_server_go s).1 = cat s.chunks
      ∧ stdoutBytes (run_client_trace stdinBufs) = [] := by
  obtain ⟨h1, h2, h3, h4⟩ := run_server_go_spec s
  refine ⟨h3, ?_, h1, ?_⟩
  · simp [run_client_trace, List.all_cons, List.all_append, logsToStderr,
      tracingChan, client_loop_logs_stderr]
  · simp [run_client_trace, stdoutBytes, stdoutBytes_append, client_loop_logs_stdout,
      tracingChan]

/-- C8: the relay honors no delimiter: `recv_until` yields the same
result for any two delimiter byte values on any stream state; its
delimiter argument is unused in the source. -/
theorem c8_delimiter_ignored (s : RecvStream) (d1 d2 : Nat) :
    recv_until s d1 = recv_until s d2 := rfl

/-- C9: exactly one connection and one bidirectional stream are
consumed per run: `accept_conn` takes precisely the first pending
connection and its first incoming stream, leaving all others, and each
entry point performs exactly one connection-setup action of each kind
(one accept and one accept_bi on the server; one connect and one
open_bi on the client). -/
theorem c9_single_conn_single_stream (ep : EndpointModel) (pc : PendingConn)
    (conn : ConnModel) (restConns : List PendingConn) (sid : Nat) (restStreams : List Nat)
    (hep : ep.pending = pc :: restConns)
    (hhs : pc.handshake = Except.ok conn)
    (hst : conn.streams = sid :: restStreams) :
    accept_conn ep = AcceptResult.ok sid restStreams restConns
      ∧ run_server_setup.count SetupAction.acceptConn = 1
      ∧ run_server_setup.count SetupAction.acceptBi = 1
      ∧ run_client_setup.count SetupAction.connect = 1
      ∧ run_client_setup.count SetupAction.openBi = 1 := by
  refine ⟨?_, by decide, by decide, by decide, by decide⟩
  simp [accept_conn, hep, hhs, hst]

theorem c9_single_conn_single_stream_witness :
    accept_conn ⟨[⟨Except.ok ⟨[5, 6]⟩⟩]⟩ = AcceptResult.ok 5 [6] []
      ∧ run_server_setup.count SetupAction.acceptConn = 1
      ∧ run_server_setup.count SetupAction.acceptBi = 1
      ∧ run_client_setup.count SetupAction.connect = 1
      ∧ run_client_setup.count SetupAction.openBi = 1 :=
  c9_single_conn_single_stream ⟨[⟨Except.ok ⟨[5, 6]⟩⟩]⟩ ⟨Except.ok ⟨[5, 6]⟩⟩
    ⟨[5, 6]⟩ [] 5 [6] rfl rfl rfl

/-- C10: every call to `recv_until` terminates after exactly one chunk
request: the loop body returns on its first iteration whatever the fuel
bound, yielding the first available chunk result, and at most one
pending chunk is consumed from the stream. -/
theorem c10_recv_until_one_request (s : RecvStream) (d fuel : Nat) :
    iterate (recv_until_body d) (fuel + 1) s = some (recv_until s d)
      ∧ s.chunks.length ≤ (recv_until s d).2.1.chunks.length + 1 := by
  constructor
  · simp [iterate, recv_until_body_ret]
  · obtain ⟨cs, t⟩ := s
    cases cs with
    | nil => cases t <;> simp [recv_until, read_chunk]
    | cons c rest =>
        by_cases hlen : c.length ≤ 1024 * 1024 <;>
          simp [recv_until, read_chunk, hlen]
